import Mathlib

/-!
Shallow embedding of the pixel-3d-tropical-garden repository.

Part 1: the voxel synthesizers of `src/components/VoxelUtils.tsx`.
  * `Voxel`, `Palette`, `PlantType` mirror `src/types.ts` (the TS enum is a
    string enum, so a runtime value outside the six recognized tags is
    possible; the constructor `other` carries such an unrecognized tag).
  * JavaScript's `Math.random()` is modelled as an abstract stream
    `rng : ℕ → ℚ` consumed in call order; `Math.sin`, `Math.cos`,
    `Math.acos`, `Math.sqrt` and `Math.PI` (floating-point approximations
    in the source) are modelled as an abstract oracle record `MathEnv`.
  * `Math.floor` is `Int.floor`, and JavaScript's `Math.round` (round half
    toward +infinity) is Mathlib's `round` on ℚ.
  * Every recipe is written as an explicit list of emissions (the sequence
    of `add` calls in source order); `generateVoxels` folds the `add`
    primitive (duplicate-coordinate check, push at end) over that list.

Part 2: the locomotion/collision code of the `Character` component in
`src/index.tsx`, over ℝ (`Vec3` mirrors three.js `Vector3` for the
operations the code uses, including `normalize`'s `length || 1` guard).
-/

namespace Garden

/-- A color value (a CSS color string in the source). -/
abbrev Color := String

/-- `VoxelData` of `src/types.ts`: integer lattice coordinates plus color
(all coordinates passed to `add` in the source are integers: loop indices
or `Math.round`/`Math.floor` results). -/
structure Voxel where
  x : Int
  y : Int
  z : Int
  color : Color
deriving DecidableEq, Repr

/-- The `colors` record of `PlantData`: `{primary, secondary?, foliage}`. -/
structure Palette where
  primary : Color
  secondary : Option Color
  foliage : Color
deriving DecidableEq, Repr

/-- `PlantType` of `src/types.ts`. It is a string enum, so a runtime value
may fall outside the six recognized tags; `other tag` stands for such an
unrecognized value and reaches the `default` branch of the `switch`. -/
inductive PlantType where
  | TALL_FLOWER
  | BUSH_FLOWER
  | TREE_SMALL
  | BROAD_LEAF
  | VINE
  | ORCHID
  | other (tag : String)
deriving DecidableEq, Repr

/-- Oracle for the floating-point math functions the recipes call
(`Math.sin`, `Math.cos`, `Math.acos`, `Math.sqrt`, `Math.PI`). -/
structure MathEnv where
  sin : ℚ → ℚ
  cos : ℚ → ℚ
  acos : ℚ → ℚ
  sqrt : ℚ → ℚ
  pi : ℚ

/-- The stream of `Math.random()` results, consumed in call order. -/
abbrev Rng := ℕ → ℚ

/-- Coordinate equality test used by the `add` helper
(`v.x === x && v.y === y && v.z === z`). -/
def cellEq (a b : Voxel) : Bool :=
  a.x == b.x && a.y == b.y && a.z == b.z

/-- The `add` helper of `generateVoxels` (`VoxelUtils.tsx` lines 8-13):
push the voxel unless some earlier voxel occupies the same cell. -/
def addVoxel (vs : List Voxel) (v : Voxel) : List Voxel :=
  if vs.any (fun w => cellEq w v) then vs else vs ++ [v]

/-- Run a whole emission sequence through `add`, starting from the empty
accumulator — exactly what a recipe body does. -/
def emitAll (es : List Voxel) : List Voxel :=
  es.foldl addVoxel []

/-- `for (let v = lo; v < hi; v++)` loop values. -/
def intRange (lo hi : Int) : List Int :=
  (List.range (hi - lo).toNat).map (fun k => lo + (k : Int))

/-- `for (let v = lo; v < hi; v += st)` loop values, for a positive
step `st`; `fuel ≥ hi - lo` iterations always suffice. -/
def stepRange (lo hi st : Int) : Nat → List Int
  | 0 => []
  | fuel + 1 => if lo < hi then lo :: stepRange (lo + st) hi st fuel else []

/-! ### TALL_FLOWER (lines 19-57)

Four stalks; stalk `i` draws one random for its height (`rng i`), so a
run consumes exactly the draws `rng 0 .. rng 3`. -/

/-- One stalk column: `for(let y=0; y<height; y++) add(ox, y, oz, foliage)`. -/
def tallStalk (ox oz h : Int) (fol : Color) : List Voxel :=
  (intRange 0 h).map fun y => ⟨ox, y, oz, fol⟩

/-- Leaf blades: `for(let y=2; y<height-4; y+=3)` with three offsets. -/
def tallBlades (ox oz h : Int) (fol : Color) : List Voxel :=
  (stepRange 2 (h - 4) 3 (h - 6).toNat).flatMap fun y =>
    [⟨ox + 1, y, oz, fol⟩, ⟨ox + 2, y + 1, oz, fol⟩, ⟨ox - 1, y + 1, oz, fol⟩]

/-- Flower head at `fy = height`, plus crest: three `secondary` cells when
`secondary` is set, otherwise two `primary` cells. -/
def tallHead (ox oz fy : Int) (p : Palette) : List Voxel :=
  [⟨ox, fy, oz, p.primary⟩, ⟨ox + 1, fy, oz, p.primary⟩,
   ⟨ox + 2, fy, oz, p.primary⟩, ⟨ox + 3, fy + 1, oz, p.primary⟩] ++
  (match p.secondary with
   | some s =>
     [⟨ox + 1, fy + 1, oz, s⟩, ⟨ox + 2, fy + 2, oz, s⟩, ⟨ox, fy + 1, oz, s⟩]
   | none =>
     [⟨ox + 1, fy + 1, oz, p.primary⟩, ⟨ox + 2, fy + 2, oz, p.primary⟩])

/-- The TALL_FLOWER emission sequence. -/
def tallEmits (p : Palette) (rng : Rng) : List Voxel :=
  (List.range 4).flatMap fun i =>
    let ox : Int := (i % 2 : Nat) * 2 - 1
    let oz : Int := (i / 2 : Nat) * 2 - 1
    let h : Int := 12 + ⌊rng i * 6⌋
    tallStalk ox oz h p.foliage ++ tallBlades ox oz h p.foliage ++
      (if i < 3 then tallHead ox oz h p else [])

/-! ### BUSH_FLOWER (lines 59-106)

The mass loop consumes one random per lattice cell for the surface noise
and a second one (the airiness gap test) only when the noisy distance test
passes, so the consumed count is data-dependent and is threaded as state. -/

/-- Lattice cells of the mass loop in source order
(`x` outer, `z` middle, `y` inner). -/
def bushCells : List (Int × Int × Int) :=
  (intRange (-4) 5).flatMap fun x =>
    (intRange (-4) 5).flatMap fun z =>
      (intRange 0 10).map fun y => (x, z, y)

/-- One mass-loop iteration: returns the emissions and the number of
randoms consumed. `radius = 3.5`, `centerY = 5`. -/
def bushMassCell (env : MathEnv) (fol : Color) (rng : Rng) (k : ℕ) :
    Int × Int × Int → List Voxel × ℕ
  | (x, z, y) =>
    let dist := env.sqrt ((x * x + z * z + (y - 5) * (y - 5) : Int) : ℚ)
    if dist < 7 / 2 + rng k * (1 / 2) then
      if rng (k + 1) > 1 / 10 then ([⟨x, y, z, fol⟩], k + 2) else ([], k + 2)
    else ([], k + 1)

/-- The whole mass loop, threading the random index. -/
def bushMass (env : MathEnv) (fol : Color) (rng : Rng) : List Voxel × ℕ :=
  bushCells.foldl
    (fun acc c =>
      let r := bushMassCell env fol rng acc.2 c
      (acc.1 ++ r.1, r.2))
    ([], 0)

/-- One flower motif from draws `u`, `v` (lines 83-105). -/
def bushFlower (env : MathEnv) (p : Palette) (u v : ℚ) : List Voxel :=
  let theta := 2 * env.pi * u
  let phi := env.acos (2 * v - 1)
  let fx := round (7 / 2 * env.sin phi * env.cos theta)
  let fz := round (7 / 2 * env.sin phi * env.sin theta)
  let fy := round (7 / 2 * env.cos phi) + 5
  if fy > 2 then
    [⟨fx, fy, fz, p.secondary.getD "#FFFF00"⟩,
     ⟨fx + 1, fy, fz, p.primary⟩, ⟨fx - 1, fy, fz, p.primary⟩,
     ⟨fx, fy + 1, fz, p.primary⟩, ⟨fx, fy - 1, fz, p.primary⟩] ++
    (match p.secondary with
     | some s => [⟨fx, fy, fz + 1, s⟩]
     | none => [])
  else []

/-- The BUSH_FLOWER emission sequence: mass volume, then the trunk stub,
then eight flowers (two draws each, starting after the mass draws). -/
def bushEmits (p : Palette) (env : MathEnv) (rng : Rng) : List Voxel :=
  let mass := bushMass env p.foliage rng
  mass.1 ++
  ((intRange 0 3).map fun y => (⟨0, y, 0, "#4a3c31"⟩ : Voxel)) ++
  (List.range 8).flatMap fun i =>
    bushFlower env p (rng (mass.2 + 2 * i)) (rng (mass.2 + 2 * i + 1))

/-! ### TREE_SMALL (lines 108-142) — no randomness. -/

/-- The `branches` array `[[2,8],[-2,8],[0,9],[2,10,2],[-2,10,-2]]` as
`(bx, by, bz)` with the default `bz = 0` filled in (`by` is never read). -/
def treeBranches : List (Int × Int × Int) :=
  [(2, 8, 0), (-2, 8, 0), (0, 9, 0), (2, 10, 2), (-2, 10, -2)]

/-- One branch with its index: the branch line (`s = 0..4`,
`Math.round(bx * s/4)`), the diamond canopy patch, and the flower cluster
(`if (primary)` is JavaScript truthiness on a string: false only for `""`).
`Math.round(bx)` = `bx` since `bx` is an integer. -/
def treeBranch (p : Palette) (idx : ℕ) : Int × Int × Int → List Voxel
  | (bx, _, bz) =>
    ((intRange 0 5).map fun (s : Int) =>
      (⟨round ((bx : ℚ) * (s : ℚ) / 4), 7 + s, round ((bz : ℚ) * (s : ℚ) / 4),
        "#5D4037"⟩ : Voxel)) ++
    ((intRange (-2) 3).flatMap fun lx =>
      (intRange (-2) 3).flatMap fun lz =>
        if |lx| + |lz| < 3 then
          [(⟨bx + lx, 10 + (idx % 2 : Nat), bz + lz, p.foliage⟩ : Voxel)]
        else []) ++
    (if p.primary ≠ "" then
      [(⟨bx, 11 + (idx % 2 : Nat), bz, p.primary⟩ : Voxel),
       ⟨bx + 1, 11 + (idx % 2 : Nat), bz, p.primary⟩] ++
      (match p.secondary with
       | some s => [(⟨bx, 11 + (idx % 2 : Nat), bz + 1, s⟩ : Voxel)]
       | none => [])
    else [])

/-- The TREE_SMALL emission sequence: trunk (with thick base), then the
five branches in order. -/
def treeEmits (p : Palette) : List Voxel :=
  ((intRange 0 8).flatMap fun y =>
    [(⟨0, y, 0, "#5D4037"⟩ : Voxel)] ++
    (if y < 4 then [(⟨1, y, 0, "#5D4037"⟩ : Voxel), ⟨0, y, 1, "#5D4037"⟩] else [])) ++
  (treeBranches.enum.flatMap fun ib => treeBranch p ib.1 ib.2)

/-! ### BROAD_LEAF (lines 144-193) — no randomness. -/

/-- The `leafDirs` array `[[2,2],[-2,2],[0,3],[2,-1],[-2,-1]]`. -/
def leafDirs : List (Int × Int) :=
  [(2, 2), (-2, 2), (0, 3), (2, -1), (-2, -1)]

/-- One radiating leaf: the four stalk steps (after step `s` the cursor is
`cx = dirX*0.3*(s+1)`, `cy = s+1`, `cz = dirZ*0.3*(s+1)`), then the
heart-shaped patch around the final cursor with the two fenestration
holes removed and the `ly = Math.round(-|lx|*0.5)` tilt. -/
def broadLeaf (fol : Color) : Int × Int → List Voxel
  | (dirX, dirZ) =>
    let cx := round ((dirX : ℚ) * (3 / 10) * 4)
    let cy : Int := 4
    let cz := round ((dirZ : ℚ) * (3 / 10) * 4)
    ((intRange 0 4).map fun (s : Int) =>
      (⟨round ((dirX : ℚ) * (3 / 10) * ((s : ℚ) + 1)), s + 1,
        round ((dirZ : ℚ) * (3 / 10) * ((s : ℚ) + 1)), fol⟩ : Voxel)) ++
    ((intRange (-3) 4).flatMap fun lx =>
      (intRange (-3) 4).flatMap fun lz =>
        if |lx| + |lz| ≤ 4 then
          if ¬((lx = 1 ∧ lz = 1) ∨ (lx = -1 ∧ lz = 2)) then
            [(⟨cx + lx, cy + round (-(|lx| : ℚ) * (1 / 2)), cz + lz, fol⟩ : Voxel)]
          else []
        else [])

/-- The BROAD_LEAF emission sequence: central clump, five leaves, and the
feature flower (only when `primary !== foliage`). -/
def broadEmits (p : Palette) : List Voxel :=
  ((intRange 0 3).flatMap fun y =>
    [(⟨0, y, 0, p.foliage⟩ : Voxel), ⟨1, y, 1, p.foliage⟩]) ++
  (leafDirs.flatMap (broadLeaf p.foliage)) ++
  (if p.primary ≠ p.foliage then
    ((intRange 0 12).map fun y => (⟨0, y, 1, "#2E8B57"⟩ : Voxel)) ++
    ((intRange (-1) 2).flatMap fun fx =>
      (intRange 11 14).map fun fy => (⟨fx, fy, 2, p.primary⟩ : Voxel)) ++
    (match p.secondary with
     | some s => [(⟨0, 12, 3, s⟩ : Voxel), ⟨0, 13, 3, s⟩]
     | none => [])
  else [])

/-! ### VINE (lines 195-222)

The foliage-cloud test draws one random per 3×3 neighbour, for every even
`y`; so before height step `y` exactly `9 * ((y + 1) / 2)` draws (the even
steps below `y`) have been consumed, and within step `y` neighbour
`(ox, oz)` reads draw `9*((y+1)/2) + (ox+1)*3 + (oz+1)`. -/

/-- The VINE emission sequence. -/
def vineEmits (p : Palette) (env : MathEnv) (rng : Rng) : List Voxel :=
  (List.range 18).flatMap fun y =>
    let vx := round (env.sin ((y : ℚ) * (1 / 2)) * 2)
    let vz := round (env.cos ((y : ℚ) * (1 / 2)) * 2)
    let k := 9 * ((y + 1) / 2)
    [(⟨vx, y, vz, "#4a3c31"⟩ : Voxel)] ++
    (if y % 2 = 0 then
      (intRange (-1) 2).flatMap fun ox =>
        (intRange (-1) 2).flatMap fun oz =>
          if rng (k + ((ox + 1) * 3 + (oz + 1)).toNat) > 3 / 10 then
            [(⟨vx + ox, y, vz + oz, p.foliage⟩ : Voxel)]
          else []
    else []) ++
    (if y % 3 = 0 ∧ y > 3 then
      [(⟨vx + 1, y, vz, p.primary⟩ : Voxel), ⟨vx + 1, (y : Int) - 1, vz, p.primary⟩,
       ⟨vx + 2, y, vz, p.primary⟩] ++
      (match p.secondary with
       | some s => [(⟨vx + 1, y, vz + 1, s⟩ : Voxel)]
       | none => [])
    else [])

/-! ### ORCHID (lines 224-251) — no randomness. -/

/-- One arch iteration of the stem cursor (`sy += 1`; `if (i > 5) sx += 1`;
`if (i > 10) sy -= 1`). -/
def orchidStep (i : ℕ) (st : Int × Int) : Int × Int :=
  let sy := st.2 + 1
  let sx := if 5 < i then st.1 + 1 else st.1
  let sy' := if 10 < i then sy - 1 else sy
  (sx, sy')

/-- The stem cursor `(sx, sy)` before step `n` (so after `n` iterations);
the cursor starts at `(0, 1)` and `sz` stays `0` throughout. -/
def orchidStateAt : ℕ → Int × Int
  | 0 => (0, 1)
  | n + 1 => orchidStep n (orchidStateAt n)

/-- The stem cursor positions emitted by the 15 arch steps, in order. -/
def orchidStates : List (Int × Int) :=
  (List.range 15).map fun i => orchidStateAt (i + 1)

/-- The ORCHID emission sequence: pot, base leaves, then the arching stem
with butterfly motifs at `i > 6 && i % 2 == 0`. -/
def orchidEmits (p : Palette) : List Voxel :=
  ((intRange (-1) 2).flatMap fun x =>
    (intRange (-1) 2).map fun z => (⟨x, 0, z, "#8B4513"⟩ : Voxel)) ++
  [(⟨1, 1, 0, p.foliage⟩ : Voxel), ⟨2, 2, 0, p.foliage⟩,
   ⟨-1, 1, 0, p.foliage⟩, ⟨-2, 2, 0, p.foliage⟩] ++
  (List.range 15).flatMap fun i =>
    let st := orchidStateAt (i + 1)
    [(⟨st.1, st.2, 0, "#556B2F"⟩ : Voxel)] ++
    (if 6 < i ∧ i % 2 = 0 then
      [(⟨st.1, st.2 - 1, 1, p.primary⟩ : Voxel),
       ⟨st.1 + 1, st.2 - 1, 1, p.primary⟩, ⟨st.1 - 1, st.2 - 1, 1, p.primary⟩] ++
      (match p.secondary with
       | some s => [(⟨st.1, st.2 - 1, 2, s⟩ : Voxel)]
       | none => [])
    else [])

/-- The `default` branch: a single foliage column of 10 cells. -/
def defaultEmits (p : Palette) : List Voxel :=
  (intRange 0 10).map fun y => (⟨0, y, 0, p.foliage⟩ : Voxel)

/-- The emission sequence of `generateVoxels` for each category. -/
def emitsOf (t : PlantType) (p : Palette) (env : MathEnv) (rng : Rng) :
    List Voxel :=
  match t with
  | .TALL_FLOWER => tallEmits p rng
  | .BUSH_FLOWER => bushEmits p env rng
  | .TREE_SMALL => treeEmits p
  | .BROAD_LEAF => broadEmits p
  | .VINE => vineEmits p env rng
  | .ORCHID => orchidEmits p
  | .other _ => defaultEmits p

/-- `generateVoxels` (`VoxelUtils.tsx` lines 3-258): run the recipe's
emission sequence through the deduplicating `add` helper. -/
def generateVoxels (t : PlantType) (p : Palette) (env : MathEnv) (rng : Rng) :
    List Voxel :=
  emitAll (emitsOf t p env rng)

/-! ### First-writer-wins dedup, abstractly -/

/-- Keep each emission whose cell was not already written: the reference
"first writer to a cell wins" normalization. -/
def dedupFirst : List Voxel → List Voxel
  | [] => []
  | v :: rest => v :: dedupFirst (rest.filter (fun w => !cellEq w v))
termination_by l => l.length
decreasing_by
  simp only [List.length_cons]
  exact Nat.lt_succ_of_le (List.length_filter_le _ _)

/-! ### `generateCharacterVoxels` (`VoxelUtils.tsx` lines 260-329)

Its local `add` is `(x, y, z, color) => voxels.push(...)`: every emission
is kept unconditionally, with no duplicate-coordinate check, so the
returned list is literally the emission sequence. -/

/-- The avatar voxel list, in emission order: legs, hip row, shirt torso,
arms, head block, hair cap, hair sides/back, bangs. Colors:
skin `#FFDCB1`, hair/shorts `#1a1a1a`, shirt `#FFFFFF`, shoes `#333333`. -/
def generateCharacterVoxels : List Voxel :=
  [⟨-1, 0, 0, "#333333"⟩, ⟨-1, 1, 0, "#FFDCB1"⟩, ⟨-1, 2, 0, "#1a1a1a"⟩,
   ⟨1, 0, 0, "#333333"⟩, ⟨1, 1, 0, "#FFDCB1"⟩, ⟨1, 2, 0, "#1a1a1a"⟩,
   ⟨0, 2, 0, "#1a1a1a"⟩, ⟨-1, 2, 0, "#1a1a1a"⟩, ⟨1, 2, 0, "#1a1a1a"⟩] ++
  ((intRange 3 6).flatMap fun y =>
    (intRange (-1) 2).map fun x => (⟨x, y, 0, "#FFFFFF"⟩ : Voxel)) ++
  [⟨-2, 5, 0, "#FFFFFF"⟩, ⟨-2, 4, 0, "#FFDCB1"⟩,
   ⟨2, 5, 0, "#FFFFFF"⟩, ⟨2, 4, 0, "#FFDCB1"⟩] ++
  ((intRange 6 9).flatMap fun y =>
    (intRange (-1) 2).flatMap fun x =>
      (intRange (-1) 2).map fun z => (⟨x, y, z, "#FFDCB1"⟩ : Voxel)) ++
  ((intRange (-1) 2).flatMap fun x =>
    (intRange (-1) 2).map fun z => (⟨x, 9, z, "#1a1a1a"⟩ : Voxel)) ++
  [⟨-2, 8, 0, "#1a1a1a"⟩, ⟨2, 8, 0, "#1a1a1a"⟩, ⟨0, 8, -2, "#1a1a1a"⟩,
   ⟨-1, 8, -2, "#1a1a1a"⟩, ⟨1, 8, -2, "#1a1a1a"⟩] ++
  [⟨-1, 8, 1, "#1a1a1a"⟩, ⟨1, 8, 1, "#1a1a1a"⟩, ⟨0, 8, 1, "#1a1a1a"⟩]

/-! ### Fixtures for concrete evaluation -/

/-- A trivial math oracle (only the claims that do not depend on the
floating-point values use it). -/
def envZero : MathEnv := ⟨fun _ => 0, fun _ => 0, fun _ => 0, fun _ => 0, 0⟩

/-- A random stream that always returns `0` (a legitimate `Math.random`
value). -/
def rngZero : Rng := fun _ => 0

/-- The Bird of Paradise palette from `src/constants.ts`. -/
def paletteBoP : Palette := ⟨"#FF6600", some "#0000FF", "#006400"⟩

/-- A shared-generator state whose first four draws are `0` and whose
later draws are `1/2`: a first TALL_FLOWER call consumes exactly the four
height draws, so a second call sees the stream shifted by 4. -/
def rngSplit : Rng := fun n => if n < 4 then 0 else 1 / 2

/-- The Bird of Paradise palette with `secondary` omitted. -/
def paletteBoPNoSec : Palette := ⟨"#FF6600", none, "#006400"⟩

/-! ### Colors emitted when `secondary` is absent (for the amended C4) -/

/-- The fixed literal colors hard-coded by the six recipes. -/
def fixedColors : List Color :=
  ["#4a3c31", "#FFFF00", "#5D4037", "#2E8B57", "#8B4513", "#556B2F"]

/-- A color is "defined" for a secondary-less palette if it is the
primary, the foliage, or one of the hard-coded literals. -/
def okColor (prim fol c : Color) : Prop :=
  c = prim ∨ c = fol ∨ c ∈ fixedColors

noncomputable section

/-! ## Part 2: locomotion and collision (`src/index.tsx`, `Character`)

The per-tick `useFrame` body (lines 192-244): float vector math is
modelled over ℝ; `Vec3` carries the three.js `Vector3` operations the code
uses, including `normalize`'s `divideScalar(length() || 1)` guard. -/


/-- three.js `Vector3`. -/
structure Vec3 where
  x : ℝ
  y : ℝ
  z : ℝ

/-- `Vector3.add`. -/
def vadd (a b : Vec3) : Vec3 := ⟨a.x + b.x, a.y + b.y, a.z + b.z⟩

/-- `Vector3.subVectors`. -/
def vsub (a b : Vec3) : Vec3 := ⟨a.x - b.x, a.y - b.y, a.z - b.z⟩

/-- `Vector3.multiplyScalar`. -/
def smul3 (c : ℝ) (v : Vec3) : Vec3 := ⟨c * v.x, c * v.y, c * v.z⟩

/-- `Vector3.length`. -/
def vlen (v : Vec3) : ℝ := Real.sqrt (v.x ^ 2 + v.y ^ 2 + v.z ^ 2)

/-- `Vector3.normalize` = `divideScalar(length() || 1)`: the zero vector
(length `0`) is returned unchanged. -/
def vnormalize (v : Vec3) : Vec3 :=
  if vlen v = 0 then v else smul3 (1 / vlen v) v

/-- `Vector3.setLength l` = `normalize().multiplyScalar(l)`. -/
def vsetLength (v : Vec3) (l : ℝ) : Vec3 := smul3 l (vnormalize v)

/-- `Vector3.distanceTo`. -/
def vdistanceTo (a b : Vec3) : ℝ := vlen (vsub a b)

/-- Planar (x,z) distance of a point to a center — the quantity the spec
reasons about. -/
def planarDist (a : Vec3) (cx cz : ℝ) : ℝ :=
  Real.sqrt ((a.x - cx) ^ 2 + (a.z - cz) ^ 2)

/-- `getPlantRadius` (`index.tsx` lines 175-183). -/
def getPlantRadius : PlantType → ℝ
  | .BUSH_FLOWER => 1.5
  | .BROAD_LEAF => 1.2
  | .TREE_SMALL => 1.0
  | .VINE => 0.8
  | _ => 0.8

/-- One entry of `GARDEN_DATA` as the collision loop reads it: the plant
type and the world `position[0]`, `position[2]` (the obstacle center is
`new Vector3(plant.position[0], 0, plant.position[2])`). -/
structure PlantObstacle where
  type : PlantType
  posX : ℝ
  posZ : ℝ

/-- The body of the collision branch (`index.tsx` lines 217-225): push the
position out to the perimeter along the normal, with the `(1,0,0)`
fallback when `normal.lengthSq() === 0`. -/
def resolveCollision (cpos plantPos : Vec3) (collisionDist : ℝ) : Vec3 :=
  let normal := vnormalize (vsub cpos plantPos)
  let normal2 := if vlen normal ^ 2 = 0 then (⟨1, 0, 0⟩ : Vec3) else normal
  vadd plantPos (smul3 collisionDist normal2)

/-- One iteration of the `GARDEN_DATA.forEach` collision loop
(`index.tsx` lines 212-226). -/
def correctOne (cpos : Vec3) (plant : PlantObstacle) : Vec3 :=
  let plantPos : Vec3 := ⟨plant.posX, 0, plant.posZ⟩
  let collisionDist := getPlantRadius plant.type + 0.4
  if vdistanceTo cpos plantPos < collisionDist then
    resolveCollision cpos plantPos collisionDist
  else cpos

/-- The SEEKING step before collision correction (`index.tsx` lines
201-207): `speed = 4`, `step = speed * delta`, clamp so as not to
overshoot; the returned vector is the proposed displacement. -/
def seekMove (pos target : Vec3) (dt : ℝ) : Vec3 :=
  let step := 4 * dt
  let direction := vnormalize (vsub target pos)
  let moveVector := smul3 step direction
  if vlen moveVector > vdistanceTo pos target then
    vsetLength moveVector (vdistanceTo pos target)
  else moveVector

/-- The committed position of one `useFrame` tick (`index.tsx` lines
197-229): SEEKING when the distance to target exceeds `0.1`, with the
sequential collision pass; otherwise the position is untouched. -/
def tickPosition (pos target : Vec3) (dt : ℝ)
    (plants : List PlantObstacle) : Vec3 :=
  if vdistanceTo pos target > 0.1 then
    plants.foldl correctOne (vadd pos (seekMove pos target dt))
  else pos

/-- The bobbing offset applied to the visual body only (`index.tsx` lines
236-239): `|sin(t*12)| * 0.15` while SEEKING, reset to `0` when idle. -/
def tickBob (pos target : Vec3) (time : ℝ) : ℝ :=
  if vdistanceTo pos target > 0.1 then |Real.sin (time * 12)| * 0.15 else 0

end

lemma cellEq_refl (a : Voxel) : cellEq a a = true := by
  simp [cellEq]

lemma cellEq_comm (a b : Voxel) : cellEq a b = cellEq b a := by
  rw [Bool.eq_iff_iff]
  simp only [cellEq, Bool.and_eq_true, beq_iff_eq]
  omega

lemma cellEq_trans {a b c : Voxel} (h1 : cellEq a b = true)
    (h2 : cellEq a c = true) : cellEq b c = true := by
  simp only [cellEq, Bool.and_eq_true, beq_iff_eq] at *
  omega

/-- Folding the `add` primitive over an emission sequence from an arbitrary
accumulator: the result is the accumulator followed by the first-writer
dedup of the emissions whose cells the accumulator does not occupy. -/
lemma foldl_addVoxel_eq (es : List Voxel) : ∀ acc : List Voxel,
    es.foldl addVoxel acc =
      acc ++ dedupFirst (es.filter (fun e => !acc.any (fun w => cellEq w e))) := by
  induction es with
  | nil => intro acc; simp [dedupFirst]
  | cons e es ih =>
    intro acc
    by_cases h : acc.any (fun w => cellEq w e) = true
    · have hadd : addVoxel acc e = acc := by simp [addVoxel, h]
      rw [List.foldl_cons, hadd, List.filter_cons]
      simp only [h, Bool.not_true]
      rw [if_neg (by simp)]
      exact ih acc
    · have h' : acc.any (fun w => cellEq w e) = false := by simpa using h
      have hadd : addVoxel acc e = acc ++ [e] := by simp [addVoxel, h']
      rw [List.foldl_cons, hadd, List.filter_cons]
      simp only [h', Bool.not_false]
      rw [if_pos trivial]
      rw [ih (acc ++ [e])]
      rw [List.append_assoc, List.singleton_append]
      congr 1
      rw [dedupFirst]
      congr 1
      rw [List.filter_filter]
      congr 1
      apply List.filter_congr
      intro a _
      simp only [List.any_append, List.any_cons, List.any_nil, Bool.or_false,
        Bool.not_or]
      rw [cellEq_comm e a]
      rw [Bool.and_comm]

/-- Running an emission sequence through `add` from the empty accumulator
is exactly first-writer-wins dedup. -/
lemma emitAll_eq_dedupFirst (es : List Voxel) : emitAll es = dedupFirst es := by
  rw [emitAll, foldl_addVoxel_eq]
  simp

lemma mem_of_mem_dedupFirst : ∀ es : List Voxel, ∀ v ∈ dedupFirst es, v ∈ es := by
  intro es
  induction es using dedupFirst.induct with
  | case1 => intro v hv; simp [dedupFirst] at hv
  | case2 e rest ih =>
    intro v hv
    rw [dedupFirst] at hv
    rcases List.mem_cons.mp hv with h | h
    · exact h ▸ List.mem_cons_self _ _
    · exact List.mem_cons_of_mem _ (List.mem_of_mem_filter (ih v h))

/-- The output of first-writer dedup has pairwise distinct cells. -/
lemma pairwise_dedupFirst : ∀ es : List Voxel,
    (dedupFirst es).Pairwise (fun a b => cellEq a b = false) := by
  intro es
  induction es using dedupFirst.induct with
  | case1 => simp [dedupFirst]
  | case2 e rest ih =>
    rw [dedupFirst]
    refine List.pairwise_cons.mpr ⟨?_, ih⟩
    intro b hb
    have hb' := mem_of_mem_dedupFirst _ b hb
    have := List.of_mem_filter hb'
    simp only [Bool.not_eq_true'] at this
    rw [cellEq_comm]
    exact this

/-- `find?` is unchanged by dropping elements that cannot match. -/
lemma find?_filter_invariant (p q : Voxel → Bool) :
    ∀ l : List Voxel, (∀ w ∈ l, q w = false → p w = false) →
      (l.filter q).find? p = l.find? p := by
  intro l
  induction l with
  | nil => intro _; simp
  | cons w l ih =>
    intro h
    by_cases hq : q w = true
    · rw [List.filter_cons_of_pos hq]
      by_cases hp : p w = true
      · simp [List.find?_cons_of_pos, hp]
      · simp only [Bool.not_eq_true] at hp
        rw [List.find?_cons_of_neg _ (by simp [hp]),
          List.find?_cons_of_neg _ (by simp [hp])]
        exact ih (fun u hu => h u (List.mem_cons_of_mem _ hu))
    · simp only [Bool.not_eq_true] at hq
      rw [List.filter_cons_of_neg (by simp [hq])]
      have hp := h w (List.mem_cons_self _ _) hq
      rw [List.find?_cons_of_neg _ (by simp [hp])]
      exact ih (fun u hu => h u (List.mem_cons_of_mem _ hu))

/-- Every entry kept by first-writer dedup is literally the first emission
targeting its cell: `find?` on the raw emission sequence returns it. -/
lemma find?_of_mem_dedupFirst : ∀ es : List Voxel, ∀ v ∈ dedupFirst es,
    es.find? (fun w => cellEq w v) = some v := by
  intro es
  induction es using dedupFirst.induct with
  | case1 => intro v hv; simp [dedupFirst] at hv
  | case2 e rest ih =>
    intro v hv
    rw [dedupFirst] at hv
    rcases List.mem_cons.mp hv with h | h
    · subst h
      exact List.find?_cons_of_pos _ (cellEq_refl v)
    · have hkept := List.of_mem_filter (mem_of_mem_dedupFirst _ v h)
      simp only [Bool.not_eq_true'] at hkept
      have hev : cellEq e v = false := by
        rw [cellEq_comm]; exact hkept
      rw [List.find?_cons_of_neg _ (by simp [hev])]
      rw [← find?_filter_invariant (fun w => cellEq w v) (fun w => !cellEq w e)]
      · exact ih v h
      · intro w _ hw
        have hw' : cellEq w e = true := by simpa using hw
        by_contra hc
        have hc' : cellEq w v = true := by simpa using hc
        have : cellEq v e = true := cellEq_trans hc' hw'
        rw [cellEq_comm] at hev
        simp [hev] at this

lemma dedupFirst_ne_nil : ∀ {es : List Voxel}, es ≠ [] → dedupFirst es ≠ [] := by
  intro es h
  cases es with
  | nil => exact absurd rfl h
  | cons e rest => rw [dedupFirst]; exact List.cons_ne_nil _ _

/-! ### Every recipe emits at least one voxel unconditionally -/

/-- Each branch of the `switch` performs at least one unconditional `add`
(flower head of stalk 0, trunk stub, trunk, central clump, winding vine,
pot, fallback column), whatever the random draws and math oracles are. -/
lemma emitsOf_ne_nil (t : PlantType) (p : Palette) (env : MathEnv)
    (rng : Rng) : emitsOf t p env rng ≠ [] := by
  cases t with
  | TALL_FLOWER =>
    have hm : (⟨-1, 12 + ⌊rng 0 * 6⌋, -1, p.primary⟩ : Voxel) ∈
        tallEmits p rng := by
      refine List.mem_flatMap.mpr ⟨0, by simp, ?_⟩
      simp [tallHead, List.mem_append]
    exact List.ne_nil_of_mem hm
  | BUSH_FLOWER =>
    have hm : (⟨0, 0, 0, "#4a3c31"⟩ : Voxel) ∈ bushEmits p env rng := by
      rw [bushEmits]
      refine List.mem_append_left _ (List.mem_append_right _ ?_)
      refine List.mem_map.mpr ⟨0, by decide, rfl⟩
    exact List.ne_nil_of_mem hm
  | TREE_SMALL =>
    have hm : (⟨0, 0, 0, "#5D4037"⟩ : Voxel) ∈ treeEmits p := by
      rw [treeEmits]
      refine List.mem_append_left _ (List.mem_flatMap.mpr ⟨0, by decide, ?_⟩)
      simp
    exact List.ne_nil_of_mem hm
  | BROAD_LEAF =>
    have hm : (⟨0, 0, 0, p.foliage⟩ : Voxel) ∈ broadEmits p := by
      rw [broadEmits]
      refine List.mem_append_left _ (List.mem_append_left _
        (List.mem_flatMap.mpr ⟨0, by decide, ?_⟩))
      simp
    exact List.ne_nil_of_mem hm
  | VINE =>
    have hm : (⟨round (env.sin ((0 : ℚ) * (1 / 2)) * 2), 0,
        round (env.cos ((0 : ℚ) * (1 / 2)) * 2), "#4a3c31"⟩ : Voxel) ∈
        vineEmits p env rng := by
      refine List.mem_flatMap.mpr ⟨0, by simp, ?_⟩
      simp [List.mem_append]
    exact List.ne_nil_of_mem hm
  | ORCHID =>
    have hm : (⟨-1, 0, -1, "#8B4513"⟩ : Voxel) ∈ orchidEmits p := by
      rw [orchidEmits]
      refine List.mem_append_left _ (List.mem_append_left _
        (List.mem_flatMap.mpr ⟨-1, by decide, ?_⟩))
      refine List.mem_map.mpr ⟨-1, by decide, rfl⟩
    exact List.ne_nil_of_mem hm
  | other tag =>
    have hm : (⟨0, 0, 0, p.foliage⟩ : Voxel) ∈ defaultEmits p := by
      refine List.mem_map.mpr ⟨0, by decide, rfl⟩
    exact List.ne_nil_of_mem hm

/-! ### Claim theorems: synthesizer invariants -/

/-- **C1.** For every `PlantType` (including unrecognized values), every
palette, every math oracle, and every random stream, `generateVoxels`
returns a non-empty voxel list in which no two entries share the same
`(x, y, z)` cell; moreover each kept entry is literally the *first*
emission targeting its cell (so it carries the first emission's color, and
every later write to that cell was silently dropped). -/
theorem generateVoxels_nonempty_nodup_firstWins (t : PlantType) (p : Palette)
    (env : MathEnv) (rng : Rng) :
    generateVoxels t p env rng ≠ [] ∧
    (generateVoxels t p env rng).Pairwise (fun a b => cellEq a b = false) ∧
    ∀ v ∈ generateVoxels t p env rng,
      (emitsOf t p env rng).find? (fun w => cellEq w v) = some v := by
  refine ⟨?_, ?_, ?_⟩
  · rw [generateVoxels, emitAll_eq_dedupFirst]
    exact dedupFirst_ne_nil (emitsOf_ne_nil t p env rng)
  · rw [generateVoxels, emitAll_eq_dedupFirst]
    exact pairwise_dedupFirst _
  · intro v hv
    rw [generateVoxels, emitAll_eq_dedupFirst] at hv
    exact find?_of_mem_dedupFirst _ v hv

/-- Witness for C1 at a concrete input. -/
theorem generateVoxels_nonempty_nodup_firstWins_witness :
    generateVoxels .ORCHID paletteBoP envZero rngZero ≠ [] :=
  (generateVoxels_nonempty_nodup_firstWins .ORCHID paletteBoP envZero
    rngZero).1

set_option maxHeartbeats 2000000 in
/-- **C7.** Any category outside the six recognized values reaches the
`default` branch and yields exactly the minimal fallback shape: a single
foliage-colored column at `x = 0, z = 0` with consecutive `y = 0..9`
(total, never an error — the function is a Lean `def`). -/
theorem generateVoxels_unrecognized_fallback (tag : String) (p : Palette)
    (env : MathEnv) (rng : Rng) :
    generateVoxels (.other tag) p env rng =
      (List.range 10).map (fun y => (⟨0, (y : Int), 0, p.foliage⟩ : Voxel)) := by
  rfl

/-- **C9.** The avatar synthesizer does not enforce the dedup invariant:
its output really contains entries sharing a cell (cell `(-1, 2, 0)` is
written by both the left leg and the hip row, and cell `(-1, 8, 1)` by the
skin head block and then the hair bangs); at `(-1, 8, 1)` the first write
is skin `#FFDCB1` and the last write is hair `#1a1a1a`, so a
later-write-wins normalization keeps the hair color. -/
theorem generateCharacterVoxels_allows_duplicates :
    (¬ generateCharacterVoxels.Pairwise (fun a b => cellEq a b = false)) ∧
    generateCharacterVoxels.find?
      (fun v => v.x == -1 && v.y == 8 && v.z == 1) =
        some ⟨-1, 8, 1, "#FFDCB1"⟩ ∧
    generateCharacterVoxels.reverse.find?
      (fun v => v.x == -1 && v.y == 8 && v.z == 1) =
        some ⟨-1, 8, 1, "#1a1a1a"⟩ := by
  decide

set_option maxRecDepth 100000 in
set_option maxHeartbeats 4000000 in
/-- **C5 (counterexample).** Two separate calls on the shared random
source read different draws: with the stream `rngSplit`, the first call
sees heights 12,12,12,12 and the second (starting after the four consumed
draws) sees heights 15,15,15,15 — the structural stalk voxels differ, so
repeated synthesis does *not* reproduce identical structural-layer
voxels. -/
theorem repeated_synthesis_differs :
    generateVoxels .TALL_FLOWER paletteBoP envZero rngSplit ≠
      generateVoxels .TALL_FLOWER paletteBoP envZero
        (fun n => rngSplit (n + 4)) :=
  of_decide_eq_true (by with_unfolding_all rfl)

/-- **C5 (amended).** `generateVoxels` is deterministic *given the random
draws*: two calls with the same category and palette produce identical
voxels (structural layer included) whenever they read identical random
streams; reproducibility fails only because the shared generator advances
between calls. -/
theorem generateVoxels_deterministic (t : PlantType) (p : Palette)
    (env : MathEnv) (rng1 rng2 : Rng) (h : ∀ n, rng1 n = rng2 n) :
    generateVoxels t p env rng1 = generateVoxels t p env rng2 := by
  rw [funext h]

/-- Witness for the amended C5 at a concrete input. -/
theorem generateVoxels_deterministic_witness :
    generateVoxels .TALL_FLOWER paletteBoP envZero rngZero =
      generateVoxels .TALL_FLOWER paletteBoP envZero (fun n => rngZero (n + 0)) :=
  generateVoxels_deterministic _ _ _ _ _ (fun _ => rfl)

set_option maxRecDepth 100000 in
set_option maxHeartbeats 4000000 in
/-- **C4 (counterexample).** With `secondary` present, TALL_FLOWER's crest
writes the cell `(ox, fy+1, oz) = (-1, 13, -1)` (third crest cell of stalk
0, height 12); with `secondary` absent the fallback crest emits only two
cells and that cell is simply *omitted* — it does not fall back to
`primary`, contradicting "no accent cell that appears when secondary is
present is omitted when it is absent". -/
theorem secondary_fallback_counterexample :
    ((⟨-1, 13, -1, "#0000FF"⟩ : Voxel) ∈
      generateVoxels .TALL_FLOWER paletteBoP envZero rngZero) ∧
    (generateVoxels .TALL_FLOWER paletteBoPNoSec envZero rngZero).all
      (fun v => !(v.x == -1 && v.y == 13 && v.z == -1)) = true :=
  of_decide_eq_true (by with_unfolding_all rfl)

lemma mem_of_mem_ite_nil {c : Prop} [Decidable c] {l : List Voxel}
    {v : Voxel} (h : v ∈ if c then l else []) : v ∈ l := by
  split at h
  · exact h
  · simp at h

lemma tall_colors_noSec (prim fol : Color) (rng : Rng) :
    ∀ v ∈ tallEmits ⟨prim, none, fol⟩ rng, okColor prim fol v.color := by
  intro v hv
  rw [tallEmits] at hv
  rcases List.mem_flatMap.mp hv with ⟨i, _, hv⟩
  simp only at hv
  rcases List.mem_append.mp hv with hv | hv
  · rcases List.mem_append.mp hv with hv | hv
    · rw [tallStalk] at hv
      rcases List.mem_map.mp hv with ⟨y, _, rfl⟩
      exact Or.inr (Or.inl rfl)
    · rw [tallBlades] at hv
      rcases List.mem_flatMap.mp hv with ⟨y, _, hv⟩
      simp only [List.mem_cons, List.not_mem_nil, or_false] at hv
      rcases hv with rfl | rfl | rfl <;> exact Or.inr (Or.inl rfl)
  · have hv' := mem_of_mem_ite_nil hv
    rw [tallHead] at hv'
    rcases List.mem_append.mp hv' with hv' | hv'
    · simp only [List.mem_cons, List.not_mem_nil, or_false] at hv'
      rcases hv' with rfl | rfl | rfl | rfl <;> exact Or.inl rfl
    · dsimp only at hv'
      simp only [List.mem_cons, List.not_mem_nil, or_false] at hv'
      rcases hv' with rfl | rfl <;> exact Or.inl rfl

lemma bushMassCell_colors (env : MathEnv) (fol : Color) (rng : Rng) (k : ℕ)
    (c : Int × Int × Int) :
    ∀ v ∈ (bushMassCell env fol rng k c).1, v.color = fol := by
  rcases c with ⟨x, z, y⟩
  intro v hv
  rw [bushMassCell] at hv
  split at hv
  · split at hv
    · simp only [List.mem_singleton] at hv
      subst hv; rfl
    · simp at hv
  · simp at hv

lemma bushMass_colors (env : MathEnv) (fol : Color) (rng : Rng) :
    ∀ v ∈ (bushMass env fol rng).1, v.color = fol := by
  rw [bushMass]
  generalize bushCells = cells
  have main : ∀ (cells : List (Int × Int × Int)) (acc : List Voxel × ℕ),
      (∀ v ∈ acc.1, v.color = fol) →
      ∀ v ∈ (cells.foldl (fun acc c =>
        let r := bushMassCell env fol rng acc.2 c
        (acc.1 ++ r.1, r.2)) acc).1, v.color = fol := by
    intro cells
    induction cells with
    | nil => intro acc hacc v hv; exact hacc v hv
    | cons c cells ih =>
      intro acc hacc v hv
      rw [List.foldl_cons] at hv
      refine ih _ ?_ v hv
      intro w hw
      rcases List.mem_append.mp hw with h | h
      · exact hacc w h
      · exact bushMassCell_colors env fol rng acc.2 c w h
  exact main cells ([], 0) (by intro v hv; simp at hv)

lemma bush_colors_noSec (prim fol : Color) (env : MathEnv) (rng : Rng) :
    ∀ v ∈ bushEmits ⟨prim, none, fol⟩ env rng, okColor prim fol v.color := by
  intro v hv
  rw [bushEmits] at hv
  dsimp only at hv
  rcases List.mem_append.mp hv with hv | hv
  · rcases List.mem_append.mp hv with hv | hv
    · exact Or.inr (Or.inl (bushMass_colors env fol rng v hv))
    · rcases List.mem_map.mp hv with ⟨y, _, rfl⟩
      right; right; simp [fixedColors]
  · rcases List.mem_flatMap.mp hv with ⟨i, _, hv⟩
    rw [bushFlower] at hv
    dsimp only at hv
    rcases List.mem_append.mp (mem_of_mem_ite_nil hv) with hv' | hv'
    · simp only [List.mem_cons, List.not_mem_nil, or_false] at hv'
      rcases hv' with rfl | rfl | rfl | rfl | rfl
      · right; right; simp [fixedColors, Option.getD]
      all_goals exact Or.inl rfl
    · simp at hv'

lemma tree_colors_noSec (prim fol : Color) :
    ∀ v ∈ treeEmits ⟨prim, none, fol⟩, okColor prim fol v.color := by
  intro v hv
  rw [treeEmits] at hv
  rcases List.mem_append.mp hv with hv | hv
  · rcases List.mem_flatMap.mp hv with ⟨y, _, hv⟩
    rcases List.mem_append.mp hv with hv | hv
    · simp only [List.mem_singleton] at hv
      subst hv; right; right; simp [fixedColors]
    · have hv' := mem_of_mem_ite_nil hv
      simp only [List.mem_cons, List.not_mem_nil, or_false] at hv'
      rcases hv' with rfl | rfl <;> (right; right; simp [fixedColors])
  · rcases List.mem_flatMap.mp hv with ⟨ib, _, hv⟩
    rcases ib with ⟨idx, bbx, bby, bbz⟩
    rw [treeBranch] at hv
    rcases List.mem_append.mp hv with hv | hv
    · rcases List.mem_append.mp hv with hv | hv
      · rcases List.mem_map.mp hv with ⟨s, _, rfl⟩
        right; right; simp [fixedColors]
      · rcases List.mem_flatMap.mp hv with ⟨lx, _, hv⟩
        rcases List.mem_flatMap.mp hv with ⟨lz, _, hv⟩
        have hv' := mem_of_mem_ite_nil hv
        simp only [List.mem_singleton] at hv'
        subst hv'; exact Or.inr (Or.inl rfl)
    · have hv' := mem_of_mem_ite_nil hv
      rcases List.mem_append.mp hv' with hv' | hv'
      · simp only [List.mem_cons, List.not_mem_nil, or_false] at hv'
        rcases hv' with rfl | rfl <;> exact Or.inl rfl
      · simp at hv'

lemma broad_colors_noSec (prim fol : Color) :
    ∀ v ∈ broadEmits ⟨prim, none, fol⟩, okColor prim fol v.color := by
  intro v hv
  rw [broadEmits] at hv
  rcases List.mem_append.mp hv with hv | hv
  · rcases List.mem_append.mp hv with hv | hv
    · rcases List.mem_flatMap.mp hv with ⟨y, _, hv⟩
      simp only [List.mem_cons, List.not_mem_nil, or_false] at hv
      rcases hv with rfl | rfl <;> exact Or.inr (Or.inl rfl)
    · rcases List.mem_flatMap.mp hv with ⟨d, _, hv⟩
      rcases d with ⟨dirX, dirZ⟩
      rw [broadLeaf] at hv
      dsimp only at hv
      rcases List.mem_append.mp hv with hv | hv
      · rcases List.mem_map.mp hv with ⟨s, _, rfl⟩
        exact Or.inr (Or.inl rfl)
      · rcases List.mem_flatMap.mp hv with ⟨lx, _, hv⟩
        rcases List.mem_flatMap.mp hv with ⟨lz, _, hv⟩
        have hv' := mem_of_mem_ite_nil hv
        have hv'' := mem_of_mem_ite_nil hv'
        simp only [List.mem_singleton] at hv''
        subst hv''; exact Or.inr (Or.inl rfl)
  · have hv' := mem_of_mem_ite_nil hv
    rcases List.mem_append.mp hv' with hv' | hv'
    · rcases List.mem_append.mp hv' with hv' | hv'
      · rcases List.mem_map.mp hv' with ⟨y, _, rfl⟩
        right; right; simp [fixedColors]
      · rcases List.mem_flatMap.mp hv' with ⟨fx, _, hv'⟩
        rcases List.mem_map.mp hv' with ⟨fy, _, rfl⟩
        exact Or.inl rfl
    · simp at hv'

lemma vine_colors_noSec (prim fol : Color) (env : MathEnv) (rng : Rng) :
    ∀ v ∈ vineEmits ⟨prim, none, fol⟩ env rng, okColor prim fol v.color := by
  intro v hv
  rw [vineEmits] at hv
  rcases List.mem_flatMap.mp hv with ⟨y, _, hv⟩
  dsimp only at hv
  rcases List.mem_append.mp hv with hv | hv
  · rcases List.mem_append.mp hv with hv | hv
    · simp only [List.mem_singleton] at hv
      subst hv; right; right; simp [fixedColors]
    · have hv' := mem_of_mem_ite_nil hv
      rcases List.mem_flatMap.mp hv' with ⟨ox, _, hv'⟩
      rcases List.mem_flatMap.mp hv' with ⟨oz, _, hv'⟩
      have hv'' := mem_of_mem_ite_nil hv'
      simp only [List.mem_singleton] at hv''
      subst hv''; exact Or.inr (Or.inl rfl)
  · have hv' := mem_of_mem_ite_nil hv
    rcases List.mem_append.mp hv' with hv' | hv'
    · simp only [List.mem_cons, List.not_mem_nil, or_false] at hv'
      rcases hv' with rfl | rfl | rfl <;> exact Or.inl rfl
    · simp at hv'

lemma orchid_colors_noSec (prim fol : Color) :
    ∀ v ∈ orchidEmits ⟨prim, none, fol⟩, okColor prim fol v.color := by
  intro v hv
  rw [orchidEmits] at hv
  rcases List.mem_append.mp hv with hv | hv
  · rcases List.mem_append.mp hv with hv | hv
    · rcases List.mem_flatMap.mp hv with ⟨x, _, hv⟩
      rcases List.mem_map.mp hv with ⟨z, _, rfl⟩
      right; right; simp [fixedColors]
    · simp only [List.mem_cons, List.not_mem_nil, or_false] at hv
      rcases hv with rfl | rfl | rfl | rfl <;> exact Or.inr (Or.inl rfl)
  · rcases List.mem_flatMap.mp hv with ⟨i, _, hv⟩
    dsimp only at hv
    rcases List.mem_append.mp hv with hv | hv
    · simp only [List.mem_singleton] at hv
      subst hv; right; right; simp [fixedColors]
    · have hv' := mem_of_mem_ite_nil hv
      rcases List.mem_append.mp hv' with hv' | hv'
      · simp only [List.mem_cons, List.not_mem_nil, or_false] at hv'
        rcases hv' with rfl | rfl | rfl <;> exact Or.inl rfl
      · simp at hv'

lemma default_colors_noSec (prim fol : Color) :
    ∀ v ∈ defaultEmits ⟨prim, none, fol⟩, okColor prim fol v.color := by
  intro v hv
  rcases List.mem_map.mp hv with ⟨y, _, rfl⟩
  exact Or.inr (Or.inl rfl)

/-- **C4 (amended).** When `secondary` is absent, some accents fall back
to `primary` (TALL_FLOWER crest) or to a fixed default (BUSH_FLOWER flower
center `#FFFF00`), and the remaining secondary-only accent cells are
omitted entirely; in every case each emitted voxel carries a *defined*
color — the palette's `primary` or `foliage`, or one of the recipes'
hard-coded literals — never an undefined color. -/
theorem secondary_absent_color_fallback (t : PlantType) (prim fol : Color)
    (env : MathEnv) (rng : Rng) :
    ∀ v ∈ generateVoxels t ⟨prim, none, fol⟩ env rng,
      okColor prim fol v.color := by
  intro v hv
  rw [generateVoxels, emitAll_eq_dedupFirst] at hv
  have hv' := mem_of_mem_dedupFirst _ v hv
  cases t with
  | TALL_FLOWER => exact tall_colors_noSec prim fol rng v hv'
  | BUSH_FLOWER => exact bush_colors_noSec prim fol env rng v hv'
  | TREE_SMALL => exact tree_colors_noSec prim fol v hv'
  | BROAD_LEAF => exact broad_colors_noSec prim fol v hv'
  | VINE => exact vine_colors_noSec prim fol env rng v hv'
  | ORCHID => exact orchid_colors_noSec prim fol v hv'
  | other tag => exact default_colors_noSec prim fol v hv'

/-- Witness for the amended C4 at a concrete input. -/
theorem secondary_absent_color_fallback_witness :
    ((⟨0, 0, 0, "#006400"⟩ : Voxel) ∈
      generateVoxels (.other "??") paletteBoPNoSec envZero rngZero) ∧
    okColor "#FF6600" "#006400" "#006400" :=
  ⟨by decide,
   secondary_absent_color_fallback (.other "??") "#FF6600" "#006400"
     envZero rngZero ⟨0, 0, 0, "#006400"⟩ (by decide)⟩

/-- **C8 (counterexample).** The ORCHID arch does not follow the claimed
5/5/5 rise/arc/droop schedule: the cursor (starting at `(0,1)`) still
rises vertically on step 5 (`(0,6) → (0,7)`, so the pure-rise phase is 6
steps, not 5), and on step 11 the height does not decrease
(`(5,12) → (6,12)`) — indeed `sy += 1` and `sy -= 1` cancel, so no step
of the "droop" phase lowers the stem. -/
theorem orchid_schedule_counterexample :
    orchidStateAt 5 = (0, 6) ∧ orchidStateAt 6 = (0, 7) ∧
    orchidStateAt 11 = (5, 12) ∧ orchidStateAt 12 = (6, 12) ∧
    ¬ (orchidStateAt 12).2 < (orchidStateAt 11).2 := by
  decide

/-- **C8 (amended).** The ORCHID stem consists of exactly 15 steps whose
schedule is: 6 steps of pure vertical rise (steps 0-5), 5 steps rising
while arcing laterally (steps 6-10), then 4 steps moving laterally at
constant height (steps 11-14, where the `sy += 1` and `sy -= 1` cancel). -/
theorem orchid_schedule_phases :
    orchidStates.length = 15 ∧
    (∀ i : Fin 15,
      ((i : ℕ) < 6 →
        orchidStateAt ((i : ℕ) + 1) =
          ((orchidStateAt i).1, (orchidStateAt i).2 + 1)) ∧
      (6 ≤ (i : ℕ) ∧ (i : ℕ) < 11 →
        orchidStateAt ((i : ℕ) + 1) =
          ((orchidStateAt i).1 + 1, (orchidStateAt i).2 + 1)) ∧
      (11 ≤ (i : ℕ) →
        orchidStateAt ((i : ℕ) + 1) =
          ((orchidStateAt i).1 + 1, (orchidStateAt i).2))) := by
  decide

lemma vlen_nonneg (v : Vec3) : 0 ≤ vlen v := Real.sqrt_nonneg _

lemma vlen_smul (c : ℝ) (v : Vec3) : vlen (smul3 c v) = |c| * vlen v := by
  rw [vlen, smul3, vlen]
  dsimp only
  rw [show (c * v.x) ^ 2 + (c * v.y) ^ 2 + (c * v.z) ^ 2 =
      c ^ 2 * (v.x ^ 2 + v.y ^ 2 + v.z ^ 2) from by ring]
  rw [Real.sqrt_mul (sq_nonneg c), Real.sqrt_sq_eq_abs]

lemma vlen_normalize {v : Vec3} (h : vlen v ≠ 0) : vlen (vnormalize v) = 1 := by
  have hpos : 0 < vlen v := (vlen_nonneg v).lt_of_ne (Ne.symm h)
  rw [vnormalize, if_neg h, vlen_smul, abs_of_pos (by positivity)]
  field_simp

lemma vlen_sub_comm (a b : Vec3) : vlen (vsub a b) = vlen (vsub b a) := by
  rw [vlen, vlen, vsub, vsub]
  dsimp only
  congr 1
  ring

lemma vnormalize_y {v : Vec3} (h : v.y = 0) : (vnormalize v).y = 0 := by
  rw [vnormalize]
  split
  · exact h
  · rw [smul3]; dsimp only; rw [h, mul_zero]

lemma collisionDist_pos (t : PlantType) : 0 < getPlantRadius t + 0.4 := by
  cases t <;> norm_num [getPlantRadius]

/-! ### Claim theorems: locomotion -/

/-- **C2.** In the SEEKING state (distance to target exceeds `0.1`), with
speed `4` and `dt > 0`, the proposed displacement before collision
correction never exceeds `min(4·dt, distance-to-target)`: the avatar never
overshoots the target. -/
theorem seekMove_no_overshoot (pos target : Vec3) (dt : ℝ)
    (hseek : vdistanceTo pos target > 0.1) (hdt : 0 < dt) :
    vlen (seekMove pos target dt) ≤ min (4 * dt) (vdistanceTo pos target) := by
  have hd0 : 0 < vdistanceTo pos target := lt_trans (by norm_num) hseek
  have hsubne : vlen (vsub target pos) ≠ 0 := by
    rw [vlen_sub_comm]
    exact ne_of_gt hd0
  have hdir : vlen (vnormalize (vsub target pos)) = 1 := vlen_normalize hsubne
  have hmv : vlen (smul3 (4 * dt) (vnormalize (vsub target pos))) = 4 * dt := by
    rw [vlen_smul, hdir, mul_one, abs_of_pos (by linarith)]
  rw [seekMove]
  split
  case isTrue h =>
    rw [hmv] at h
    rw [vsetLength, vlen_smul, vlen_normalize (by rw [hmv]; positivity),
      mul_one, abs_of_pos hd0]
    exact le_min (le_of_lt h) le_rfl
  case isFalse h =>
    rw [hmv]
    push_neg at h
    rw [hmv] at h
    exact le_min le_rfl h

/-- Witness for C2 at a concrete input. -/
theorem seekMove_no_overshoot_witness :
    vlen (seekMove ⟨0, 0, 0⟩ ⟨3, 0, 0⟩ 1) ≤
      min (4 * 1) (vdistanceTo ⟨0, 0, 0⟩ ⟨3, 0, 0⟩) := by
  have hd : vdistanceTo (⟨0, 0, 0⟩ : Vec3) ⟨3, 0, 0⟩ = 3 := by
    rw [vdistanceTo, vsub, vlen]
    dsimp only
    rw [show ((0 : ℝ) - 3) ^ 2 + ((0 : ℝ) - 0) ^ 2 + ((0 : ℝ) - 0) ^ 2 =
        3 ^ 2 from by norm_num]
    exact Real.sqrt_sq (by norm_num)
  exact seekMove_no_overshoot _ _ _ (by rw [hd]; norm_num) (by norm_num)

lemma planarDist_vadd_smul (cx cz R : ℝ) (n : Vec3) (hny : n.y = 0) :
    planarDist (vadd ⟨cx, 0, cz⟩ (smul3 R n)) cx cz = |R| * vlen n := by
  rw [planarDist, vadd, smul3]
  dsimp only
  rw [show (cx + R * n.x - cx) ^ 2 + (cz + R * n.z - cz) ^ 2 =
      R ^ 2 * (n.x ^ 2 + n.y ^ 2 + n.z ^ 2) from by rw [hny]; ring]
  rw [Real.sqrt_mul (sq_nonneg R), Real.sqrt_sq_eq_abs, vlen]

lemma resolveCollision_planar (pos : Vec3) (cx cz R : ℝ) (hy : pos.y = 0)
    (hR : 0 < R) :
    planarDist (resolveCollision pos ⟨cx, 0, cz⟩ R) cx cz = R := by
  rw [resolveCollision]
  by_cases hz : vlen (vnormalize (vsub pos ⟨cx, 0, cz⟩)) ^ 2 = 0
  · rw [if_pos hz, planarDist_vadd_smul _ _ _ _ rfl]
    rw [show vlen ⟨1, 0, 0⟩ = 1 from by rw [vlen]; dsimp only; norm_num]
    rw [abs_of_pos hR, mul_one]
  · rw [if_neg hz]
    have hvy : (vsub pos ⟨cx, 0, cz⟩).y = 0 := by
      rw [vsub]; dsimp only; rw [hy]; ring
    have hl0 : vlen (vsub pos ⟨cx, 0, cz⟩) ≠ 0 := by
      intro h0
      exact hz (by rw [vnormalize, if_pos h0, h0]; ring)
    rw [planarDist_vadd_smul _ _ _ _ (vnormalize_y hvy)]
    rw [vlen_normalize hl0, abs_of_pos hR, mul_one]

/-- **C3.** On a tick where the proposed position violates an obstacle
(its planar distance to the obstacle center is below
`R = getPlantRadius(type) + 0.4`), the corrected position lies exactly on
the circle of radius `R` around the center — hence its planar distance is
at least `R - ε` for every tolerance `ε ≥ 0`; the degenerate coincident
case is pushed out along the fixed fallback direction `(1,0,0)` and lands
on the same circle. Stated for a proposed position on the ground plane
(`pos.y = 0`), where the claim's planar distance coincides with the 3D
distance the code tests. -/
theorem collision_correction_on_perimeter (pos : Vec3)
    (plant : PlantObstacle) (ε : ℝ) (hy : pos.y = 0) (hε : 0 ≤ ε)
    (hviol : planarDist pos plant.posX plant.posZ <
      getPlantRadius plant.type + 0.4) :
    planarDist (correctOne pos plant) plant.posX plant.posZ =
      getPlantRadius plant.type + 0.4 ∧
    getPlantRadius plant.type + 0.4 - ε ≤
      planarDist (correctOne pos plant) plant.posX plant.posZ := by
  have hdist_eq : vdistanceTo pos ⟨plant.posX, 0, plant.posZ⟩ =
      planarDist pos plant.posX plant.posZ := by
    rw [vdistanceTo, vlen, vsub, planarDist]
    dsimp only
    rw [hy]
    congr 1
    ring
  have hmain : planarDist (correctOne pos plant) plant.posX plant.posZ =
      getPlantRadius plant.type + 0.4 := by
    rw [correctOne]
    rw [if_pos (by rw [hdist_eq]; exact hviol)]
    exact resolveCollision_planar pos _ _ _ hy (collisionDist_pos plant.type)
  exact ⟨hmain, by rw [hmain]; linarith⟩

/-- Witness for C3 at a concrete input (the degenerate coincident case:
avatar proposed exactly at a BUSH_FLOWER center, `R = 1.9`). -/
theorem collision_correction_on_perimeter_witness :
    planarDist (correctOne ⟨0, 0, 0⟩ ⟨.BUSH_FLOWER, 0, 0⟩) 0 0 =
      getPlantRadius .BUSH_FLOWER + 0.4 ∧
    getPlantRadius .BUSH_FLOWER + 0.4 - 0 ≤
      planarDist (correctOne ⟨0, 0, 0⟩ ⟨.BUSH_FLOWER, 0, 0⟩) 0 0 :=
  collision_correction_on_perimeter ⟨0, 0, 0⟩ ⟨.BUSH_FLOWER, 0, 0⟩ 0 rfl
    le_rfl
    (by
      rw [planarDist]
      dsimp only
      rw [show ((0 : ℝ) - 0) ^ 2 + ((0 : ℝ) - 0) ^ 2 = 0 from by norm_num]
      rw [Real.sqrt_zero]
      norm_num [getPlantRadius])

/-- **C6.** If at the start of a tick the avatar is within the `0.1`
epsilon of the target (IDLE), the committed position equals the previous
position — unchanged across ticks — and the bobbing offset is reset to
zero. -/
theorem idle_tick_no_motion (pos target : Vec3) (dt time : ℝ)
    (plants : List PlantObstacle) (h : vdistanceTo pos target ≤ 0.1) :
    tickPosition pos target dt plants = pos ∧ tickBob pos target time = 0 := by
  refine ⟨?_, ?_⟩
  · rw [tickPosition, if_neg (not_lt.mpr h)]
  · rw [tickBob, if_neg (not_lt.mpr h)]

/-- Witness for C6 at a concrete input. -/
theorem idle_tick_no_motion_witness :
    tickPosition ⟨0, 0, 0⟩ ⟨0, 0, 0⟩ 1 [⟨.VINE, 2, 0⟩] = ⟨0, 0, 0⟩ ∧
    tickBob ⟨0, 0, 0⟩ ⟨0, 0, 0⟩ 5 = 0 :=
  idle_tick_no_motion _ _ _ _ _
    (by
      rw [vdistanceTo, vsub, vlen]
      dsimp only
      rw [show ((0 : ℝ) - 0) ^ 2 + ((0 : ℝ) - 0) ^ 2 + ((0 : ℝ) - 0) ^ 2 = 0
        from by norm_num]
      rw [Real.sqrt_zero]
      norm_num)

lemma correctOne_y {pos : Vec3} (plant : PlantObstacle) (h : pos.y = 0) :
    (correctOne pos plant).y = 0 := by
  rw [correctOne]
  split
  · rw [resolveCollision]
    split
    · rw [vadd, smul3]; dsimp only; norm_num
    · rw [vadd, smul3]
      dsimp only
      rw [vnormalize_y (by rw [vsub]; dsimp only; rw [h]; ring)]
      ring
  · exact h

lemma seekMove_y {pos target : Vec3} (dt : ℝ) (hp : pos.y = 0)
    (ht : target.y = 0) : (seekMove pos target dt).y = 0 := by
  have hd : (vsub target pos).y = 0 := by
    rw [vsub]; dsimp only; rw [hp, ht]; ring
  have hm : (smul3 (4 * dt) (vnormalize (vsub target pos))).y = 0 := by
    rw [smul3]; dsimp only; rw [vnormalize_y hd, mul_zero]
  rw [seekMove]
  split
  · rw [vsetLength, smul3]
    dsimp only
    rw [vnormalize_y hm, mul_zero]
  · exact hm

/-- **C10.** Locomotion preserves the ground plane: if the current
position and the target have `y = 0`, the committed position after the
step and all sequential collision corrections (whose obstacle centers are
built with `y = 0` and whose fallback normal is `(1,0,0)`) also has
`y = 0`; the bobbing offset is a separate scalar applied to the visual
body only and never enters the committed position. -/
theorem tick_preserves_ground_plane (pos target : Vec3) (dt : ℝ)
    (plants : List PlantObstacle) (hp : pos.y = 0) (ht : target.y = 0) :
    (tickPosition pos target dt plants).y = 0 := by
  rw [tickPosition]
  split
  · have hstart : (vadd pos (seekMove pos target dt)).y = 0 := by
      rw [vadd]
      dsimp only
      rw [hp, seekMove_y dt hp ht]
      ring
    generalize vadd pos (seekMove pos target dt) = q at hstart ⊢
    induction plants generalizing q with
    | nil => exact hstart
    | cons pl plants ih => exact ih _ (correctOne_y pl hstart)
  · exact hp

/-- Witness for C10 at a concrete input. -/
theorem tick_preserves_ground_plane_witness :
    (tickPosition ⟨5, 0, 0⟩ ⟨0, 0, 0⟩ 1 [⟨.BUSH_FLOWER, 0, 0⟩]).y = 0 :=
  tick_preserves_ground_plane ⟨5, 0, 0⟩ ⟨0, 0, 0⟩ 1 [⟨.BUSH_FLOWER, 0, 0⟩]
    rfl rfl

end Garden
